import Mathlib

/-!
Shallow embedding of `src/index.js` of the dynamic-certificates repository
(class `DynamicCertificates`, built on node-forge), together with theorems
settling the specification claims.

Conventions of the embedding:
* JavaScript `Date` values are modelled at calendar-day granularity by
  `JDate` (year / 0-based month / 1-based day, exactly the values returned
  by `getFullYear` / `getMonth` / `getDate`).  The in-place mutators
  `setDate`, `setMonth`, `setFullYear` are modelled functionally, with the
  deterministic day-overflow rollover JavaScript performs (e.g. setting
  February 30 yields March 1 or 2).
* Each call that reads the current clock (`new Date()`) is given the same
  instant `now` as an explicit parameter, making the functions
  deterministic in (inputs, now).
* JavaScript functions that may throw are embedded in the `Except` monad;
  a body with no try/catch is a plain `do` chain, so a thrown error
  propagates to the caller, and straight-line code that cannot throw is a
  total function.
* node-forge is a third-party dependency (not part of this repository);
  the few forge entry points the code calls are modelled minimally, each
  with a doc comment stating exactly what is modelled.
-/

namespace DynCert

/-- Gregorian leap-year rule, as used by the JavaScript `Date` calendar. -/
def isLeapYear (y : Int) : Bool :=
  y % 4 == 0 && (y % 100 != 0 || y % 400 == 0)

/-- Number of days of 0-based month `m` in year `y` (JavaScript `Date` calendar). -/
def daysInMonth (y : Int) (m : Nat) : Nat :=
  if m = 1 then (if isLeapYear y then 29 else 28)
  else if m = 3 ∨ m = 5 ∨ m = 8 ∨ m = 10 then 30
  else 31

/-- A JavaScript `Date`, at calendar-day granularity: `year` = `getFullYear()`,
`month` = `getMonth()` (0-based), `day` = `getDate()` (1-based). -/
structure JDate where
  year : Int
  month : Nat
  day : Nat
deriving Repr, DecidableEq

/-- A `JDate` is in canonical form: month index 0..11 and a day that exists
in that month. -/
def JDate.Valid (d : JDate) : Prop :=
  d.month ≤ 11 ∧ 1 ≤ d.day ∧ d.day ≤ daysInMonth d.year d.month

instance (d : JDate) : Decidable d.Valid :=
  inferInstanceAs (Decidable (d.month ≤ 11 ∧ 1 ≤ d.day ∧ d.day ≤ daysInMonth d.year d.month))

/-- Worker for `normDays`, structurally recursive on a fuel argument so
that it evaluates inside the kernel; `fuel = d` always suffices because
every step removes at least 28 days. -/
def normDaysAux : Nat → Int → Nat → Nat → JDate
  | 0, y, m, d => ⟨y, m, d⟩
  | fuel + 1, y, m, d =>
    if daysInMonth y m < d then
      if m = 11 then normDaysAux fuel (y + 1) 0 (d - 31)
      else normDaysAux fuel y (m + 1) (d - daysInMonth y m)
    else ⟨y, m, d⟩

/-- Normalise a date whose day may exceed the month length, rolling excess
days into the following months (and year), as the JavaScript `Date`
mutators do.  `m` is assumed in 0..11 and `d ≥ 1`. -/
def normDays (y : Int) (m : Nat) (d : Nat) : JDate :=
  normDaysAux d y m d

/-- JavaScript `date.setDate(n)` (for `n ≥ 1`): set the day of the month,
rolling over if `n` exceeds the month length. -/
def JDate.setDate (dt : JDate) (n : Nat) : JDate :=
  normDays dt.year dt.month n

/-- JavaScript `date.setMonth(m)` (for `m` in 0..11): set the month,
rolling the day over if it does not exist in the new month. -/
def JDate.setMonth (dt : JDate) (m : Nat) : JDate :=
  normDays dt.year m dt.day

/-- JavaScript `date.setFullYear(y)`: set the year, rolling the day over if
it does not exist in that year (Feb 29 → Mar 1 in a non-leap year). -/
def JDate.setFullYear (dt : JDate) (y : Int) : JDate :=
  normDays y dt.month dt.day

/-- JavaScript `('0' + String(n)).slice(-2)`: the last two characters of
`n` rendered in decimal with a leading `'0'` prepended. -/
def padTwo (n : Nat) : String :=
  let s := "0" ++ toString n
  String.mk (s.data.drop (s.data.length - 2))

/-- The `date` local variable of `createSerial` after the in-place mutation
(src/index.js lines 147-155): `month` and `day` are captured from `now`
first, then the date object is mutated. -/
def serialDate (now : JDate) : JDate :=
  let month := now.month + 1
  let day := now.day
  if day > 1 then now.setDate (day - 1)
  else (now.setMonth ((month + 11) % 12)).setDate 30

/-- `createSerial` (src/index.js lines 146-164): the serial string is built
from `date.getFullYear()` of the mutated date but from the `month` and
`day` values captured BEFORE the mutation, plus the literal suffix `"00"`. -/
def createSerial (now : JDate) : String :=
  let month := now.month + 1
  let day := now.day
  toString (serialDate now).year ++ padTwo month ++ padTwo day ++ "00"

/-- A node-forge public-key object (`pki.publicKeyFromPem` result),
modelled abstractly by the material it was parsed from. -/
structure ForgePublicKey where
  material : String
deriving Repr, DecidableEq

/-- A node-forge private-key object (`pki.privateKeyFromPem` result),
modelled abstractly by the material it was parsed from. -/
structure ForgePrivateKey where
  material : String
deriving Repr, DecidableEq

/-- One X.509 name attribute, as in the `attrs` array of
`createCertifcate` (src/index.js lines 81-86). -/
structure Attribute where
  name : String
  value : String
deriving Repr, DecidableEq

/-- One `altNames` entry of the subjectAltName extension: a numeric GeneralName
type tag (2 = DNS) and a value, exactly the fields the source populates. -/
structure AltNameEntry where
  type : Nat
  value : String
deriving Repr, DecidableEq

/-- The certificate extensions populated by `createCertifcate`
(src/index.js lines 89-120), one constructor per extension object, carrying
exactly the fields the source sets. -/
inductive Extension where
  | basicConstraints (cA : Bool)
  | keyUsage (digitalSignature keyEncipherment : Bool)
  | extKeyUsage (serverAuth clientAuth : Bool)
  | subjectAltName (altNames : List AltNameEntry)
  | subjectKeyIdentifier
deriving Repr, DecidableEq

/-- The forge `name` string of each extension, as written in the source.
Note `extKeyUsage` is node-forge's identifier for the X.509
extendedKeyUsage extension (OID 2.5.29.37). -/
def Extension.forgeName : Extension → String
  | .basicConstraints _ => "basicConstraints"
  | .keyUsage _ _ => "keyUsage"
  | .extKeyUsage _ _ => "extKeyUsage"
  | .subjectAltName _ => "subjectAltName"
  | .subjectKeyIdentifier => "subjectKeyIdentifier"

/-- A populated forge certificate object, with the fields
`createCertifcate` sets.  `notBefore` and `notAfter` are modelled at
calendar-day granularity; `signedWith` records the key passed to
`cert.sign` (with SHA-256 as the digest). -/
structure Certificate where
  publicKey : ForgePublicKey
  serialNumber : String
  notBefore : JDate
  notAfter : JDate
  subject : List Attribute
  issuer : List Attribute
  extensions : List Extension
  signedWith : Option ForgePrivateKey
deriving Repr, DecidableEq

/-- The key pair held by a constructed `DynamicCertificates` instance
(fields `this.publicKey` / `this.privateKey`). -/
structure KeyPairStore where
  publicKey : ForgePublicKey
  privateKey : ForgePrivateKey
deriving Repr, DecidableEq

/-- The object returned by `createCertifcate` (src/index.js lines 125-129). -/
structure IssueResult where
  certificate : Certificate
  privateKey : ForgePrivateKey
  publicKey : ForgePublicKey
deriving Repr, DecidableEq

/-- `createCertifcate` (src/index.js lines 71-130; the source spells the
method name without the second `i`).  `now` is the instant observed by the
`new Date()` calls.  The body performs NO hostname validation and contains
no throw statement: it is a total function of (stored keys, clock,
serverName).  `notAfter` is a fresh `new Date()` whose year is then set to
`notBefore.getFullYear() + 1` in place. -/
def createCertifcate (self : KeyPairStore) (now : JDate) (serverName : String) : IssueResult :=
  let attrs : List Attribute := [⟨"commonName", serverName⟩]
  let cert : Certificate :=
    { publicKey := self.publicKey
      serialNumber := createSerial now
      notBefore := now
      notAfter := JDate.setFullYear now (now.year + 1)
      subject := attrs
      issuer := attrs
      extensions :=
        [ .basicConstraints false,
          .keyUsage true true,
          .extKeyUsage true true,
          .subjectAltName [⟨2, serverName⟩, ⟨2, "*." ++ serverName⟩],
          .subjectKeyIdentifier ],
      signedWith := some self.privateKey }
  { certificate := cert, privateKey := self.privateKey, publicKey := self.publicKey }

/-- A JavaScript exception value, modelled by its message. -/
inductive ThrownError where
  | thrown (msg : String)
deriving Repr, DecidableEq

/-- The argument of `tls.createSecureContext` in `sniCallback`
(src/index.js lines 45-48): the certificate and the private key (the source
passes their PEM encodings; the PEM round-trip is modelled as the identity
on the underlying values). -/
structure SecureContext where
  cert : Certificate
  key : ForgePrivateKey
deriving Repr, DecidableEq

/-- One invocation of the SNI `callback`, i.e. one `(error, context)`
argument pair: `callback(null, ctx)` is `(none, some ctx)` and a
hypothetical `callback(err, null)` would be `(some err, none)`. -/
abbrev SniResponse := Option ThrownError × Option SecureContext

/-- The method `this.createCertifcate` viewed in the exception monad: its
body contains no throw and no validation, so it always returns normally. -/
def createCertifcateE (self : KeyPairStore) (now : JDate) (serverName : String) :
    Except ThrownError IssueResult :=
  .ok (createCertifcate self now serverName)

/-- `sniCallback` (src/index.js lines 39-50) abstracted exactly at its one
call site `this.createCertifcate(serverName)`.  The body has NO try/catch,
so in the exception monad it is a plain bind: if the factory throws, the
exception propagates to the caller and `callback` is never invoked.  The
returned list is the sequence of `callback` invocations. -/
def sniCallbackWith (factory : String → Except ThrownError IssueResult)
    (serverName : String) : Except ThrownError (List SniResponse) := do
  let cert ← factory serverName
  pure [(none, some ⟨cert.certificate, cert.privateKey⟩)]

/-- `sniCallback` with its actual factory, `this.createCertifcate`. -/
def sniCallback (self : KeyPairStore) (now : JDate) (serverName : String) :
    Except ThrownError (List SniResponse) :=
  sniCallbackWith (createCertifcateE self now) serverName

/-- JavaScript truthiness of an optional string: `undefined` and `""` are
falsy, every other string is truthy. -/
def truthy : Option String → Bool
  | none => false
  | some s => s ≠ ""

/-- The key-resolution step of the constructor for one key
(src/index.js lines 21-29): `let k = inline; if (!k && file) k = fs.readFileSync(file)`.
Returns the resolved material and whether the file was read. -/
def resolveKeyMaterial (inline : Option String) (file : Option String)
    (fsRead : String → String) : Option String × Bool :=
  if !truthy inline && truthy file then (some (fsRead (file.getD "")), true)
  else (inline, false)

/-- The errors that can reach the constructor's caller.  The source defines
no error type of its own (in particular no `MissingKeyMaterialError`); the
only failures are the ones thrown inside node-forge PEM parsing. -/
inductive ConstructError where
  | forgeParseError (which : String)
deriving Repr, DecidableEq

/-- Minimal model of node-forge `pki.publicKeyFromPem` (third-party
library code, not part of this repository): called on JS `undefined`
(`none`) or on an empty string it throws a parse error; any other string
is modelled as parsing successfully.  (Real forge also rejects malformed
non-empty PEM; no claim settled here depends on that case.) -/
def publicKeyFromPem : Option String → Except ConstructError ForgePublicKey
  | none => .error (.forgeParseError "public key")
  | some s => if s = "" then .error (.forgeParseError "public key") else .ok ⟨s⟩

/-- Minimal model of node-forge `pki.privateKeyFromPem`, as for
`publicKeyFromPem`. -/
def privateKeyFromPem : Option String → Except ConstructError ForgePrivateKey
  | none => .error (.forgeParseError "private key")
  | some s => if s = "" then .error (.forgeParseError "private key") else .ok ⟨s⟩

/-- `importKeyPair` (src/index.js lines 57-65): parse both PEM inputs and
store the resulting key objects. -/
def importKeyPair (publicKey privateKey : Option String) :
    Except ConstructError KeyPairStore := do
  let pub ← publicKeyFromPem publicKey
  let priv ← privateKeyFromPem privateKey
  pure ⟨pub, priv⟩

/-- The options object taken by the constructor (src/index.js line 17). -/
structure ConstructorOptions where
  pubKey : Option String
  privKey : Option String
  pubKeyFile : Option String
  privKeyFile : Option String
deriving Repr, DecidableEq

/-- The `DynamicCertificates` constructor (src/index.js lines 17-32):
resolve each key from the inline string or, failing that, the file, then
`importKeyPair`.  `fsRead` models `fs.readFileSync(path, ascii)`. -/
def construct (opts : ConstructorOptions) (fsRead : String → String) :
    Except ConstructError KeyPairStore :=
  importKeyPair
    (resolveKeyMaterial opts.pubKey opts.pubKeyFile fsRead).1
    (resolveKeyMaterial opts.privKey opts.privKeyFile fsRead).1

/-- Hexadecimal digit characters, lowercase, for `n < 16`. -/
def hexDigit (n : Nat) : Char :=
  if n < 10 then Char.ofNat (48 + n) else Char.ofNat (87 + n)

/-- Hex encoding of a byte list with empty delimiter: two lowercase digits
per byte, concatenated. -/
def hexPairs : List Nat → List Char
  | [] => []
  | b :: t => hexDigit (b / 16 % 16) :: hexDigit (b % 16) :: hexPairs t

/-- Minimal model of node-forge `pki.getPublicKeyFingerprint` with options
`{type: SubjectPublicKeyInfo, md, encoding: hex, delimiter: empty}`
(third-party library code): DER-encode the SPKI structure of the key
(`derSpki`, kept abstract), digest it (`md`, kept abstract; the source
passes SHA-256, whose digests are 32 bytes), and hex-encode the digest
bytes with no delimiter. -/
def getPublicKeyFingerprint (md : List Nat → List Nat)
    (derSpki : ForgePublicKey → List Nat) (key : ForgePublicKey) : String :=
  String.mk (hexPairs (md (derSpki key)))

/-- `getSpkiFingerprint` (src/index.js lines 135-143): fingerprint of the
stored public key. -/
def getSpkiFingerprint (md : List Nat → List Nat)
    (derSpki : ForgePublicKey → List Nat) (self : KeyPairStore) : String :=
  getPublicKeyFingerprint md derSpki self.publicKey

/-- Lowercase hexadecimal characters. -/
def isLowerHexChar (c : Char) : Bool :=
  (c.isDigit) || (97 ≤ c.toNat && c.toNat ≤ 102)

/-- Sample key-pair store used as concrete input in witnesses and
counterexamples. -/
def sampleStore : KeyPairStore :=
  ⟨⟨"SAMPLE PUBLIC KEY"⟩, ⟨"SAMPLE PRIVATE KEY"⟩⟩

/-- Sample clock instant 2024-03-15 (month is 0-based). -/
def sampleDate : JDate := ⟨2024, 2, 15⟩

/-- A factory that throws, standing for a failing Certificate Factory. -/
def failingFactory : String → Except ThrownError IssueResult :=
  fun _ => .error (.thrown "InvalidHostnameError")

/-- Sample digest function for fingerprint witnesses: constantly 32 bytes. -/
def sampleMd : List Nat → List Nat := fun _ => List.replicate 32 171

/-- Sample DER encoder for fingerprint witnesses. -/
def sampleDer : ForgePublicKey → List Nat := fun _ => []

theorem normDaysAux_eq_self (fuel : Nat) (y : Int) (m d : Nat) (h : d ≤ daysInMonth y m) :
    normDaysAux fuel y m d = ⟨y, m, d⟩ := by
  cases fuel with
  | zero => rfl
  | succ k =>
    simp only [normDaysAux]
    rw [if_neg (by omega)]

theorem normDays_eq_self (y : Int) (m d : Nat) (h : d ≤ daysInMonth y m) :
    normDays y m d = ⟨y, m, d⟩ :=
  normDaysAux_eq_self d y m d h

theorem daysInMonth_ge_28 (y : Int) (m : Nat) : 28 ≤ daysInMonth y m := by
  unfold daysInMonth; split
  · split <;> omega
  · split <;> omega

theorem normDays_year_step (y : Int) (m d : Nat) (hm : m ≠ 11)
    (h2 : d - daysInMonth y m ≤ daysInMonth y (m + 1)) :
    (normDays y m d).year = y := by
  by_cases h : daysInMonth y m < d
  · have h28 := daysInMonth_ge_28 y m
    obtain ⟨k, rfl⟩ : ∃ k, d = k + 1 := ⟨d - 1, by omega⟩
    unfold normDays
    simp only [normDaysAux]
    rw [if_pos h, if_neg hm, normDaysAux_eq_self _ _ _ _ h2]
  · rw [normDays_eq_self _ _ _ (by omega)]

/-- The in-place mutation in `createSerial` never changes the year: the
day-decrement stays within the month, and the `setMonth((month+11)%12)`
branch in fact re-sets the SAME month (for 1-based `month`,
`(month+11)%12` equals the 0-based index of the current month), after
which `setDate(30)` at worst rolls a short February into March. -/
theorem serialDate_year (now : JDate) (hv : now.Valid) :
    (serialDate now).year = now.year := by
  obtain ⟨hm, hd1, hd2⟩ := hv
  simp only [serialDate]
  split
  · unfold JDate.setDate
    rw [normDays_eq_self _ _ _ (by omega)]
  · have hmod : (now.month + 1 + 11) % 12 = now.month := by omega
    rw [hmod]
    unfold JDate.setMonth
    rw [normDays_eq_self _ _ _ hd2]
    show (now.setDate 30).year = now.year
    unfold JDate.setDate
    by_cases h30 : 30 ≤ daysInMonth now.year now.month
    · rw [normDays_eq_self _ _ _ h30]
    · have h28 := daysInMonth_ge_28 now.year now.month
      have h28s := daysInMonth_ge_28 now.year (now.month + 1)
      have hne11 : now.month ≠ 11 := by
        intro h11
        rw [h11] at h30
        have h31 : daysInMonth now.year 11 = 31 := by unfold daysInMonth; norm_num
        omega
      have h2 : 30 - daysInMonth now.year now.month ≤ daysInMonth now.year (now.month + 1) := by
        omega
      exact normDays_year_step now.year now.month 30 hne11 h2

theorem normDays_one_step (y : Int) (m d : Nat) (hm : m ≠ 11)
    (h1 : daysInMonth y m < d) (h2 : d - daysInMonth y m ≤ daysInMonth y (m + 1)) :
    normDays y m d = ⟨y, m + 1, d - daysInMonth y m⟩ := by
  have h28 := daysInMonth_ge_28 y m
  obtain ⟨k, rfl⟩ : ∃ k, d = k + 1 := ⟨d - 1, by omega⟩
  unfold normDays
  simp only [normDaysAux]
  rw [if_pos h1, if_neg hm, normDaysAux_eq_self _ _ _ _ h2]

theorem daysInMonth_indep (y z : Int) (m : Nat) (hm : m ≠ 1) :
    daysInMonth y m = daysInMonth z m := by
  unfold daysInMonth
  rw [if_neg hm, if_neg hm]

theorem daysInMonth_feb_le (y : Int) : daysInMonth y 1 ≤ 29 := by
  unfold daysInMonth
  norm_num
  split <;> omega

/-- C1 counterexample: calling `createSerial` on 2024-03-15 returns
"2024031500" (today), not the claimed "2024031400" (yesterday): the serial
is formatted from the month and day captured before the date mutation. -/
theorem createSerial_2024_03_15_not_yesterday :
    createSerial ⟨2024, 2, 15⟩ = "2024031500" ∧
    createSerial ⟨2024, 2, 15⟩ ≠ "2024031400" := by
  constructor
  · rfl
  · decide

/-- C1 (amended): for every valid call date, `createSerial` returns
TODAY'S year, month and day formatted as YYYYMMDD plus the literal suffix
"00"; the yesterday-computation mutates a date object whose only
contribution to the output is its year, which the mutation never changes. -/
theorem createSerial_formats_today (now : JDate) (hv : now.Valid) :
    createSerial now = toString now.year ++ padTwo (now.month + 1) ++ padTwo now.day ++ "00" := by
  simp only [createSerial]
  rw [serialDate_year now hv]

/-- C1 witness: the amended claim applied on 2024-03-15. -/
theorem createSerial_formats_today_witness :
    (JDate.mk 2024 2 15).Valid ∧
    createSerial ⟨2024, 2, 15⟩ = toString (2024 : Int) ++ padTwo 3 ++ padTwo 15 ++ "00" :=
  ⟨by decide, createSerial_formats_today ⟨2024, 2, 15⟩ (by decide)⟩

/-- C9: `createSerial` formats the serial from the month and day captured
before the in-place date mutation, so the serial is the current (today's)
year, month and day as YYYYMMDD followed by "00"; the mutated date
contributes only the year component, which the mutation never changes. -/
theorem createSerial_uses_premutation_values (now : JDate) (hv : now.Valid) :
    (serialDate now).year = now.year ∧
    createSerial now = toString now.year ++ padTwo (now.month + 1) ++ padTwo now.day ++ "00" := by
  refine ⟨serialDate_year now hv, ?_⟩
  simp only [createSerial]
  rw [serialDate_year now hv]

/-- C9 witness: the theorem applied on 2023-01-01, the day-of-month = 1
branch of the mutation. -/
theorem createSerial_uses_premutation_values_witness :
    (JDate.mk 2023 0 1).Valid ∧
    ((serialDate ⟨2023, 0, 1⟩).year = 2023 ∧
      createSerial ⟨2023, 0, 1⟩ = toString (2023 : Int) ++ padTwo 1 ++ padTwo 1 ++ "00") :=
  ⟨by decide, createSerial_uses_premutation_values ⟨2023, 0, 1⟩ (by decide)⟩

/-- C2 counterexample: `createCertifcate("")` DOES return a certificate
value.  The method body (src/index.js lines 71-130) performs no hostname
validation and the identifier `InvalidHostnameError` appears nowhere in
the source; issuing for the empty hostname returns normally with subject
commonName set to the empty string. -/
theorem createCertifcate_empty_hostname_returns_value :
    createCertifcateE sampleStore sampleDate "" =
      Except.ok (createCertifcate sampleStore sampleDate "") ∧
    (createCertifcate sampleStore sampleDate "").certificate.subject =
      [⟨"commonName", ""⟩] :=
  ⟨rfl, rfl⟩

/-- C2 (amended): issuing for the empty-string hostname does not fail for
any key pair and clock: `createCertifcate("")` returns normally, yielding
a self-signed certificate whose subject commonName is the empty string,
signed with the stored private key. -/
theorem createCertifcate_empty_hostname_succeeds (self : KeyPairStore) (now : JDate) :
    createCertifcateE self now "" = Except.ok (createCertifcate self now "") ∧
    (createCertifcate self now "").certificate.subject = [⟨"commonName", ""⟩] ∧
    (createCertifcate self now "").certificate.issuer = [⟨"commonName", ""⟩] ∧
    (createCertifcate self now "").certificate.signedWith = some self.privateKey :=
  ⟨rfl, rfl, rfl, rfl⟩

/-- C3 counterexample: `sniCallback` has no try/catch, so when its factory
throws, the exception escapes to the caller and the callback is NEVER
invoked; in particular the error is not reported as `respond(error, null)`. -/
theorem sniCallback_factory_error_escapes :
    sniCallbackWith failingFactory "example.com" =
      Except.error (.thrown "InvalidHostnameError") ∧
    sniCallbackWith failingFactory "example.com" ≠
      Except.ok [(some (.thrown "InvalidHostnameError"), none)] := by
  have h1 : sniCallbackWith failingFactory "example.com" =
      Except.error (.thrown "InvalidHostnameError") := rfl
  refine ⟨h1, ?_⟩
  rw [h1]
  intro hcontra
  exact Except.noConfusion hcontra

/-- C3 (amended): every invocation of `sniCallback` with its actual
factory (`this.createCertifcate`, which never throws) produces exactly one
response, `callback(null, secureContext)`; no error path exists at the
adapter, since the body has no try/catch. -/
theorem sniCallback_single_success_response (self : KeyPairStore) (now : JDate)
    (serverName : String) :
    sniCallback self now serverName =
      Except.ok [(none, some ⟨(createCertifcate self now serverName).certificate,
        self.privateKey⟩)] :=
  rfl

/-- C4: for every key pair, clock and non-empty hostname, the issued
certificate's subject is the single attribute commonName = hostname and
its issuer is identical to its subject (self-signed, no CA chain). -/
theorem createCertifcate_subject_issuer (self : KeyPairStore) (now : JDate)
    (h : String) (_hne : h ≠ "") :
    (createCertifcate self now h).certificate.subject = [⟨"commonName", h⟩] ∧
    (createCertifcate self now h).certificate.issuer =
      (createCertifcate self now h).certificate.subject :=
  ⟨rfl, rfl⟩

/-- C4 witness: the theorem applied to hostname "example.test". -/
theorem createCertifcate_subject_issuer_witness :
    (createCertifcate sampleStore sampleDate "example.test").certificate.subject =
      [⟨"commonName", "example.test"⟩] ∧
    (createCertifcate sampleStore sampleDate "example.test").certificate.issuer =
      (createCertifcate sampleStore sampleDate "example.test").certificate.subject :=
  createCertifcate_subject_issuer sampleStore sampleDate "example.test" (by decide)

/-- C5: for every key pair, clock and non-empty hostname, the issued
certificate's extension list is exactly basicConstraints (cA = false),
keyUsage (digitalSignature, keyEncipherment), extKeyUsage — node-forge's
name for extendedKeyUsage — (serverAuth, clientAuth), subjectAltName with
exactly the two DNS (type 2) entries h and "*." + h, and
subjectKeyIdentifier, in that order. -/
theorem createCertifcate_extensions_exact (self : KeyPairStore) (now : JDate)
    (h : String) (_hne : h ≠ "") :
    (createCertifcate self now h).certificate.extensions =
      [ .basicConstraints false,
        .keyUsage true true,
        .extKeyUsage true true,
        .subjectAltName [⟨2, h⟩, ⟨2, "*." ++ h⟩],
        .subjectKeyIdentifier ] ∧
    (createCertifcate self now h).certificate.extensions.map Extension.forgeName =
      ["basicConstraints", "keyUsage", "extKeyUsage", "subjectAltName",
        "subjectKeyIdentifier"] :=
  ⟨rfl, rfl⟩

/-- C5 witness: the theorem applied to hostname "example.test". -/
theorem createCertifcate_extensions_exact_witness :
    (createCertifcate sampleStore sampleDate "example.test").certificate.extensions =
      [ .basicConstraints false,
        .keyUsage true true,
        .extKeyUsage true true,
        .subjectAltName [⟨2, "example.test"⟩, ⟨2, "*.example.test"⟩],
        .subjectKeyIdentifier ] ∧
    (createCertifcate sampleStore sampleDate "example.test").certificate.extensions.map
        Extension.forgeName =
      ["basicConstraints", "keyUsage", "extKeyUsage", "subjectAltName",
        "subjectKeyIdentifier"] :=
  createCertifcate_extensions_exact sampleStore sampleDate "example.test" (by decide)

/-- C6: for every issuance, notBefore is the clock instant at call time
and notAfter is that instant with the year advanced by one: same month and
day when that date exists in the next year, and otherwise (Feb 29) the
deterministic JavaScript rollover into the following month applies. -/
theorem createCertifcate_validity_one_year (self : KeyPairStore) (now : JDate)
    (h : String) (hv : now.Valid) :
    (createCertifcate self now h).certificate.notBefore = now ∧
    (createCertifcate self now h).certificate.notAfter =
      JDate.setFullYear now (now.year + 1) ∧
    (now.day ≤ daysInMonth (now.year + 1) now.month →
      (createCertifcate self now h).certificate.notAfter =
        ⟨now.year + 1, now.month, now.day⟩) ∧
    (daysInMonth (now.year + 1) now.month < now.day →
      (createCertifcate self now h).certificate.notAfter =
        ⟨now.year + 1, now.month + 1, now.day - daysInMonth (now.year + 1) now.month⟩) := by
  obtain ⟨hm, hd1, hd2⟩ := hv
  refine ⟨rfl, rfl, ?_, ?_⟩
  · intro hle
    show JDate.setFullYear now (now.year + 1) = _
    unfold JDate.setFullYear
    exact normDays_eq_self _ _ _ hle
  · intro hlt
    show JDate.setFullYear now (now.year + 1) = _
    unfold JDate.setFullYear
    have hfeb : now.month = 1 := by
      by_contra hne
      have := daysInMonth_indep (now.year + 1) now.year now.month hne
      omega
    have h28a := daysInMonth_ge_28 (now.year + 1) now.month
    have h28b := daysInMonth_ge_28 (now.year + 1) (now.month + 1)
    have h29 : daysInMonth now.year now.month ≤ 29 := by
      rw [hfeb]; exact daysInMonth_feb_le now.year
    exact normDays_one_step _ _ _ (by omega) hlt (by omega)

/-- C6 witness: issuing on 2024-02-29 (leap day); the certificate expires
on 2025-03-01 by the deterministic rollover. -/
theorem createCertifcate_validity_one_year_witness :
    (JDate.mk 2024 1 29).Valid ∧
    (createCertifcate sampleStore ⟨2024, 1, 29⟩ "example.test").certificate.notBefore =
      ⟨2024, 1, 29⟩ ∧
    (createCertifcate sampleStore ⟨2024, 1, 29⟩ "example.test").certificate.notAfter =
      ⟨2025, 2, 1⟩ :=
  ⟨by decide,
   (createCertifcate_validity_one_year sampleStore ⟨2024, 1, 29⟩ "example.test"
      (by decide)).1,
   (createCertifcate_validity_one_year sampleStore ⟨2024, 1, 29⟩ "example.test"
      (by decide)).2.2.2 (by decide)⟩

theorem publicKeyFromPem_falsy (inl : Option String) (h : truthy inl = false) :
    publicKeyFromPem inl = Except.error (.forgeParseError "public key") := by
  cases inl with
  | none => rfl
  | some s =>
    simp only [truthy, decide_eq_false_iff_not, ne_eq, not_not] at h
    subst h
    rfl

theorem privateKeyFromPem_falsy (inl : Option String) (h : truthy inl = false) :
    privateKeyFromPem inl = Except.error (.forgeParseError "private key") := by
  cases inl with
  | none => rfl
  | some s =>
    simp only [truthy, decide_eq_false_iff_not, ne_eq, not_not] at h
    subst h
    rfl

theorem resolveKeyMaterial_both_falsy (inl fl : Option String) (fsRead : String → String)
    (h1 : truthy inl = false) (h2 : truthy fl = false) :
    resolveKeyMaterial inl fl fsRead = (inl, false) := by
  unfold resolveKeyMaterial
  rw [h1, h2]
  simp

/-- C7 counterexample: constructing with all four options absent fails
inside node-forge PEM parsing of the undefined public-key material; the
identifier `MissingKeyMaterialError` appears nowhere in the source and no
dedicated missing-material check runs before parsing. -/
theorem construct_all_absent_forge_parse_error :
    construct ⟨none, none, none, none⟩ (fun _ => "") =
      Except.error (ConstructError.forgeParseError "public key") :=
  rfl

/-- C7 (amended): if, for either key, neither the inline PEM string nor the
file path resolves to truthy content, the unresolved material reaches
node-forge PEM parsing, which throws a parse error — not a dedicated
`MissingKeyMaterialError`, which does not exist in the code — and the
engine is not constructed. -/
theorem construct_missing_material_fails (opts : ConstructorOptions)
    (fsRead : String → String)
    (h : (truthy opts.pubKey = false ∧ truthy opts.pubKeyFile = false) ∨
         (truthy opts.privKey = false ∧ truthy opts.privKeyFile = false)) :
    ∃ which, construct opts fsRead = Except.error (.forgeParseError which) := by
  rcases h with ⟨h1, h2⟩ | ⟨h1, h2⟩
  · refine ⟨"public key", ?_⟩
    unfold construct importKeyPair
    rw [resolveKeyMaterial_both_falsy _ _ _ h1 h2, publicKeyFromPem_falsy _ h1]
    rfl
  · unfold construct importKeyPair
    rw [resolveKeyMaterial_both_falsy _ _ _ h1 h2]
    dsimp only
    cases hp : publicKeyFromPem (resolveKeyMaterial opts.pubKey opts.pubKeyFile fsRead).1 with
    | error e =>
      cases e with
      | forgeParseError w => exact ⟨w, rfl⟩
    | ok pub =>
      refine ⟨"private key", ?_⟩
      rw [privateKeyFromPem_falsy _ h1]
      rfl

/-- C7 witness: the amended claim applied to an options object with an
inline public key but no private-key source at all. -/
theorem construct_missing_material_fails_witness :
    (truthy (none : Option String) = false ∧ truthy (none : Option String) = false) ∧
    ∃ which, construct ⟨some "SAMPLE PUBLIC KEY", none, none, none⟩ (fun _ => "") =
      Except.error (.forgeParseError which) :=
  ⟨⟨rfl, rfl⟩,
   construct_missing_material_fails ⟨some "SAMPLE PUBLIC KEY", none, none, none⟩
     (fun _ => "") (Or.inr ⟨rfl, rfl⟩)⟩

theorem hexPairs_length (bs : List Nat) : (hexPairs bs).length = 2 * bs.length := by
  induction bs with
  | nil => rfl
  | cons b t ih =>
    simp only [hexPairs, List.length_cons, ih]
    omega

theorem hexDigit_lower (n : Nat) (h : n < 16) : isLowerHexChar (hexDigit n) = true := by
  interval_cases n <;> decide

theorem hexPairs_lower (bs : List Nat) (c : Char) (hc : c ∈ hexPairs bs) :
    isLowerHexChar c = true := by
  induction bs with
  | nil => simp [hexPairs] at hc
  | cons b t ih =>
    simp only [hexPairs, List.mem_cons] at hc
    rcases hc with rfl | rfl | hc
    · exact hexDigit_lower _ (Nat.mod_lt _ (by omega))
    · exact hexDigit_lower _ (Nat.mod_lt _ (by omega))
    · exact ih hc

/-- C8: `getSpkiFingerprint` is a pure function of the stored public key —
the stored private key is irrelevant and equal inputs give equal outputs —
and, since SHA-256 digests are 32 bytes (hypothesis on the digest
function), the result is a 64-character string of lowercase hex digits
with no delimiters. -/
theorem getSpkiFingerprint_pure_hex64 (md : List Nat → List Nat)
    (derSpki : ForgePublicKey → List Nat) (key : ForgePublicKey)
    (priv priv2 : ForgePrivateKey) (hmd : (md (derSpki key)).length = 32) :
    getSpkiFingerprint md derSpki ⟨key, priv⟩ = getSpkiFingerprint md derSpki ⟨key, priv2⟩ ∧
    (getSpkiFingerprint md derSpki ⟨key, priv⟩).length = 64 ∧
    ∀ c ∈ (getSpkiFingerprint md derSpki ⟨key, priv⟩).data, isLowerHexChar c = true := by
  refine ⟨rfl, ?_, ?_⟩
  · show (String.mk (hexPairs (md (derSpki key)))).length = 64
    show (hexPairs (md (derSpki key))).length = 64
    rw [hexPairs_length, hmd]
  · intro c hc
    exact hexPairs_lower _ c hc

/-- C8 witness: the theorem applied to a sample 32-byte digest function;
the fingerprint of the sample store is 64 characters either way the
private key is chosen. -/
theorem getSpkiFingerprint_pure_hex64_witness :
    (sampleMd (sampleDer ⟨"SAMPLE PUBLIC KEY"⟩)).length = 32 ∧
    getSpkiFingerprint sampleMd sampleDer ⟨⟨"SAMPLE PUBLIC KEY"⟩, ⟨"A"⟩⟩ =
      getSpkiFingerprint sampleMd sampleDer ⟨⟨"SAMPLE PUBLIC KEY"⟩, ⟨"B"⟩⟩ ∧
    (getSpkiFingerprint sampleMd sampleDer ⟨⟨"SAMPLE PUBLIC KEY"⟩, ⟨"A"⟩⟩).length = 64 :=
  ⟨rfl,
   (getSpkiFingerprint_pure_hex64 sampleMd sampleDer ⟨"SAMPLE PUBLIC KEY"⟩ ⟨"A"⟩ ⟨"B"⟩ rfl).1,
   (getSpkiFingerprint_pure_hex64 sampleMd sampleDer ⟨"SAMPLE PUBLIC KEY"⟩ ⟨"A"⟩ ⟨"B"⟩ rfl).2.1⟩

/-- C10: the inline PEM string takes precedence at construction — when it
is truthy (present and non-empty) the resolved material is the inline
string and the file is never read — and the file is read only when the
inline argument is absent (`undefined`) or the empty string, and the file
path itself is truthy. -/
theorem resolveKeyMaterial_inline_precedence (inline file : Option String)
    (fsRead : String → String) :
    (truthy inline = true → resolveKeyMaterial inline file fsRead = (inline, false)) ∧
    ((resolveKeyMaterial inline file fsRead).2 = true →
      (inline = none ∨ inline = some "") ∧ truthy file = true) := by
  constructor
  · intro h
    unfold resolveKeyMaterial
    rw [h]
    simp
  · intro h
    unfold resolveKeyMaterial at h
    by_cases hcond : (!truthy inline && truthy file) = true
    · simp only [Bool.and_eq_true, Bool.not_eq_true'] at hcond
      refine ⟨?_, hcond.2⟩
      cases inline with
      | none => exact Or.inl rfl
      | some s =>
        have hs := hcond.1
        simp only [truthy, decide_eq_false_iff_not, ne_eq, not_not] at hs
        exact Or.inr (by rw [hs])
    · rw [if_neg hcond] at h
      simp at h

/-- C10 witness: with both an inline string and a file path supplied, the
inline string wins and the file-read flag is false. -/
theorem resolveKeyMaterial_inline_precedence_witness :
    resolveKeyMaterial (some "SAMPLE PUBLIC KEY") (some "key.pem") (fun _ => "FILE") =
      (some "SAMPLE PUBLIC KEY", false) :=
  (resolveKeyMaterial_inline_precedence (some "SAMPLE PUBLIC KEY") (some "key.pem")
    (fun _ => "FILE")).1 (by decide)

end DynCert
